import Mathlib

/-!
Verification development for the `MyAgent` governance MCP agent
(`src/server.ts` and its sibling copies).  The definitions below are a
shallow embedding of the agent's data model and operations: the per-session
connection registry (`clients` / `serverConfigs` maps), the add/remove
handlers, the Execute phase of the tool orchestrator, the Extract/normalize
step, the Claude filter/analyze pipeline with its retry loop, and the
event-sink wait logic.  External effects (MCP handshake, remote tool calls,
`fetch`, `JSON.parse`, `Date.now()`) are passed in as explicit oracle
arguments, so every definition is executable on concrete inputs.
-/

namespace Aide

/-- JSON-like values, the currency of tool results and Claude responses.
Numbers are modelled as integers (all values appearing in the claims are
integral).  Objects are ordered field lists; later bindings shadow earlier
ones, matching JS object-literal spread semantics. -/
inductive Json where
  | null
  | bool (b : Bool)
  | num (n : Int)
  | str (s : String)
  | arr (items : List Json)
  | obj (fields : List (String × Json))

/-- Field lookup in an object's field list, later bindings winning, as for a
JS object literal built with spreads. -/
def lookupField (fields : List (String × Json)) (k : String) : Option Json :=
  fields.foldl (fun acc kv => if kv.1 = k then some kv.2 else acc) none

/-- Model of `o.k` in JS: `some v` for a present field, `none` (undefined) otherwise;
property access on a non-object yields undefined for our purposes. -/
def Json.get (o : Json) (k : String) : Option Json :=
  match o with
  | .obj fields => lookupField fields k
  | _ => none

/-- JS truthiness of a value. -/
def Json.truthy : Json → Bool
  | .null => false
  | .bool b => b
  | .num n => n != 0
  | .str s => s != ""
  | .arr _ => true
  | .obj _ => true

/-- JS truthiness of a possibly-undefined value. -/
def optTruthy (o : Option Json) : Bool :=
  match o with
  | some v => v.truthy
  | none => false

/-- Model of `a || b` for a possibly-undefined left operand, as used throughout the
normalizers (`proposal.id || proposal.proposal_id || ...`). -/
def jsOr (a : Option Json) (b : Json) : Json :=
  match a with
  | some v => if v.truthy then v else b
  | none => b

/-- Model of `a || b` where both operands may be undefined (for field chains whose
final fallback can itself be missing, e.g. `proposal.link ||
proposal.discussion_url`). -/
def jsOrOpt (a b : Option Json) : Option Json :=
  match a with
  | some v => if v.truthy then some v else b
  | none => b

/-- Whether a value is JS `null` (arrays render such elements as the empty
string when joined). -/
def Json.isNullVal : Json → Bool
  | .null => true
  | _ => false

mutual

/-- JS string coercion as performed by template literals.  (Arrays join
their elements with commas, nulls becoming empty; objects print as
`[object Object]`.) -/
def Json.jsStr : Json → String
  | .null => "null"
  | .bool b => if b then "true" else "false"
  | .num n => toString n
  | .str s => s
  | .arr items => String.intercalate "," (Json.jsStrElems items)
  | .obj _ => "[object Object]"

/-- The element renderings of a joined array. -/
def Json.jsStrElems : List Json → List String
  | [] => []
  | v :: vs => (if v.isNullVal then "" else v.jsStr) :: Json.jsStrElems vs

end

/-- Whether the first character list starts the second. -/
def leadsList : List Char → List Char → Bool
  | [], _ => true
  | _ :: _, [] => false
  | a :: as, b :: bs => a = b && leadsList as bs

/-- Whether the first character list occurs contiguously in the second. -/
def containsList (needle : List Char) : List Char → Bool
  | [] => needle.isEmpty
  | c :: t => leadsList needle (c :: t) || containsList needle t

/-- JS `String.prototype.includes`: substring containment. -/
def strIncludes (hay needle : String) : Bool :=
  containsList needle.toList hay.toList

/-- ASCII lower-casing, `String.prototype.toLowerCase` on the ASCII strings
the agent manipulates. -/
def lowerStr (s : String) : String :=
  String.mk (s.toList.map Char.toLower)

/-! ## Connection Registry

`MyAgent` holds `clients : Map<string, Client>` and `serverConfigs :
Map<string, MCPServerConfig>`.  A live `Client` handle is abstract; we model
it as a `Nat` identifier so that distinct handshakes yield distinguishable
handles. -/

/-- Model of `MCPServerConfig` from `server.ts`: `{name, url, type}` with
`type ∈ {bitte, direct}`. -/
structure MCPServerConfig where
  name : String
  url : String
  kind : String
  deriving DecidableEq, Repr

/-- The registry state of one session actor: the two `Map`s keyed by the
logical server name.  Insertion order is kept, as in a JS `Map`. -/
structure RegState where
  clients : List (String × Nat)
  serverConfigs : List (String × MCPServerConfig)
  deriving DecidableEq, Repr

/-- Model of `Map.prototype.set`: replace the value in place when the key is present,
otherwise append a new entry. -/
def mapSet {α : Type} (l : List (String × α)) (k : String) (v : α) :
    List (String × α) :=
  if l.any (fun kv => kv.1 = k) then
    l.map (fun kv => if kv.1 = k then (k, v) else kv)
  else l ++ [(k, v)]

/-- Model of `Map.prototype.has`. -/
def mapHas {α : Type} (l : List (String × α)) (k : String) : Bool :=
  l.any (fun kv => kv.1 = k)

/-- Model of `Map.prototype.get` (JS maps have unique keys, so first match). -/
def mapGet {α : Type} (l : List (String × α)) (k : String) : Option α :=
  (l.find? (fun kv => kv.1 = k)).map (·.2)

/-- Model of `Map.prototype.delete`. -/
def mapDelete {α : Type} (l : List (String × α)) (k : String) :
    List (String × α) :=
  l.filter (fun kv => kv.1 ≠ k)

/-- Number of entries stored under a key (a JS `Map` keeps this ≤ 1). -/
def keyCount {α : Type} (l : List (String × α)) (k : String) : Nat :=
  (l.filter (fun kv => kv.1 = k)).length

/-- Result of one `addMCPServer` call: the updated registry, the HTTP
status of the response, and whether a fresh transport was constructed
(the source builds an `SSEClientTransport` or
`StreamableHTTPClientTransport` before every `client.connect`). -/
structure AddOutcome where
  state : RegState
  status : Nat
  openedTransport : Bool
  deriving Repr

/-- Model of `MyAgent.addMCPServer` (`server.ts:1194-1262`).  A transport is always
constructed and `client.connect` always attempted — there is no check for a
name already in the registry.  `connectResult` is the handshake oracle: a
fresh client handle on success, an error message on failure.
`listToolsResult` is the initial tool listing, whose failure is only
logged.  On handshake success both maps are written via `Map.set` and a
200 response is returned; on handshake failure nothing is stored and a 500
error response is returned. -/
def addMCPServer (st : RegState) (config : MCPServerConfig)
    (connectResult : Except String Nat)
    (listToolsResult : Except String (List String)) : AddOutcome :=
  match connectResult with
  | .error _ => { state := st, status := 500, openedTransport := true }
  | .ok client =>
      match listToolsResult with
      | _ =>
        { state :=
            { clients := mapSet st.clients config.name client
              serverConfigs := mapSet st.serverConfigs config.name config }
          status := 200
          openedTransport := true }

/-- Outcome of the `remove-mcp` branch of `MyAgent.onRequest`
(`server.ts:1030-1047`). -/
inductive RemoveOutcome where
  | ok200
  | notFound404
  | threw (msg : String)
  deriving DecidableEq, Repr

/-- The `remove-mcp` handler.  Unknown `serverId` → 404 "Server not found".
Known `serverId` → `await client.close()` (modelled by the `closeResult`
oracle) and then both map entries are deleted; a rejection from `close`
propagates out of the handler before the deletes run. -/
def removeMcp (st : RegState) (serverId : String)
    (closeResult : Except String Unit) : RegState × RemoveOutcome :=
  if mapHas st.clients serverId then
    match closeResult with
    | .error e => (st, .threw e)
    | .ok _ =>
        ({ clients := mapDelete st.clients serverId
           serverConfigs := mapDelete st.serverConfigs serverId }, .ok200)
  else (st, .notFound404)

/-! ## Tool Orchestrator — Execute phase -/

/-- A planned tool invocation, as produced by
`generateGovernanceToolCalls`. -/
structure ToolCall where
  toolName : String
  serverId : String
  args : Json

/-- One entry of the result list built by `executeGovernanceTools`:
`{toolCall, result, success: true}` or `{toolCall, error, success: false}`. -/
structure ToolResult where
  toolCall : ToolCall
  result : Option Json
  error : Option String
  success : Bool

/-- Model of `MyAgent.executeGovernanceTools` (`server.ts:139-179`).  The loop body:
a `serverId` missing from `clients` hits `continue` and contributes no
result entry; otherwise `client.callTool` (the `callTool` oracle) is
awaited, a resolution is pushed as a success entry, and a rejection is
caught and pushed as a `success: false` entry carrying the error message.
Later invocations run regardless of earlier failures. -/
def executeGovernanceTools (clients : List (String × Nat))
    (callTool : ToolCall → Except String Json) :
    List ToolCall → List ToolResult
  | [] => []
  | c :: cs =>
      if mapHas clients c.serverId then
        match callTool c with
        | .ok r =>
            { toolCall := c, result := some r, error := none, success := true }
              :: executeGovernanceTools clients callTool cs
        | .error e =>
            { toolCall := c, result := none, error := some e, success := false }
              :: executeGovernanceTools clients callTool cs
      else executeGovernanceTools clients callTool cs

/-! ## Extract & Normalize (`MyAgent.extractGovernanceData`, `server.ts:199-296`)

`JSON.parse` is a platform primitive; it enters the embedding as an
explicit oracle `parse : String → Option Json` (`none` = parse exception). -/

/-- The text rendered for one content item by `.map(item => item.text)`
followed by `.join("\n")`: a missing or null `text` field contributes the
empty string (the `join` rule), any other value is string-coerced. -/
def contentItemText (item : Json) : String :=
  match item.get "text" with
  | none => ""
  | some .null => ""
  | some v => v.jsStr

/-- Model of `item.type === "text"`. -/
def isTextItem (item : Json) : Bool :=
  match item.get "type" with
  | some (.str t) => t = "text"
  | _ => false

/-- Lines 219-231 of `server.ts`: when `data.content` is an array, the
`type: "text"` items' texts are joined with newlines and `JSON.parse`d;
a parse exception is caught and replaced by the fallback object
`{text: textContent, raw: data}`.  Otherwise `parsedData` is `data`
itself. -/
def parseToolPayload (parse : String → Option Json) (data : Json) : Json :=
  match data.get "content" with
  | some (.arr items) =>
      let textContent := String.intercalate "\n"
        ((items.filter isTextItem).map contentItemText)
      match parse textContent with
      | some parsed => parsed
      | none => Json.obj [("text", Json.str textContent), ("raw", data)]
  | _ => data

/-- The proposals gathered from one parsed payload (lines 233-242):
taken when the tool name contains "proposal" or the payload has a truthy
`proposals` field; an array `proposals` is spread in, else a truthy
`proposal` is pushed alone. -/
def proposalsOf (toolName : String) (parsedData : Json) : List Json :=
  if strIncludes toolName "proposal" || optTruthy (parsedData.get "proposals") then
    match parsedData.get "proposals" with
    | some (.arr ps) => ps
    | _ =>
        match parsedData.get "proposal" with
        | some p => if p.truthy then [p] else []
        | none => []
  else []

/-- Model of `{...p, type: "post"}` for an element of a `posts` array. -/
def tagPost (p : Json) : Json :=
  match p with
  | .obj fields => Json.obj (fields ++ [("type", Json.str "post")])
  | _ => Json.obj [("type", Json.str "post")]

/-- The discussions gathered from one parsed payload (lines 244-266):
taken when the tool name contains "topic" or "post" or the payload has a
truthy `topics`/`posts` field; an array `topics` is spread in, else an
array `posts` is spread in tagged `type: "post"`, else a truthy `topic` is
pushed alone. -/
def discussionsOf (toolName : String) (parsedData : Json) : List Json :=
  if strIncludes toolName "topic" || strIncludes toolName "post"
      || optTruthy (parsedData.get "topics")
      || optTruthy (parsedData.get "posts") then
    match parsedData.get "topics" with
    | some (.arr ts) => ts
    | _ =>
        match parsedData.get "posts" with
        | some (.arr ps) => ps.map tagPost
        | _ =>
            match parsedData.get "topic" with
            | some t => if t.truthy then [t] else []
            | none => []
  else []

/-- A cross-reference edge as pushed at `server.ts:282-287`.
`proposal_id` / `discussion_id` are `proposal.id` / `discussion.id`, which
may be undefined.  The confidence is the literal 0.8. -/
structure CrossRef where
  kind : String
  proposal_id : Option Json
  discussion_id : Option Json
  confidence : ℚ

/-- The content string a discussion is matched on:
`` `${d.title || ""} ${d.excerpt || ""}`.toLowerCase() ``. -/
def discussionContent (d : Json) : String :=
  lowerStr ((jsOr (d.get "title") (Json.str "")).jsStr ++ " "
    ++ (jsOr (d.get "excerpt") (Json.str "")).jsStr)

/-- Model of `(proposal.title || "").toLowerCase()`.  (A truthy non-string title
would make the JS throw on `.toLowerCase`; the claims only involve string
or absent titles, where this coercion is exact.) -/
def proposalTitleLower (p : Json) : String :=
  lowerStr (jsOr (p.get "title") (Json.str "")).jsStr

/-- The filter predicate of the cross-referencing loop
(`server.ts:275-279`): a nonempty (truthy) lower-cased proposal title that
is contained in the discussion's lower-cased title-plus-excerpt. -/
def relatedToProposal (p d : Json) : Bool :=
  proposalTitleLower p ≠ "" && strIncludes (discussionContent d) (proposalTitleLower p)

/-- The cross-referencing double loop (`server.ts:273-289`): one
`content_match` edge of confidence 0.8 per (proposal, related discussion)
pair, in proposal-major order. -/
def buildCrossReferences (proposals discussions : List Json) : List CrossRef :=
  proposals.flatMap fun p =>
    (discussions.filter (relatedToProposal p)).map fun d =>
      { kind := "content_match"
        proposal_id := p.get "id"
        discussion_id := d.get "id"
        confidence := (8 : ℚ) / 10 }

/-- Model of `description?.substring(0, 100)`: the truncated description when the
field is a string, undefined otherwise (optional chaining). -/
def descriptionTruncated (p : Json) : Option Json :=
  match p.get "description" with
  | some (.str s) => some (Json.str (s.take 100))
  | _ => none

/-- The field list of a JS object value (spreading a primitive contributes
no fields). -/
def Json.fieldsOf : Json → List (String × Json)
  | .obj fields => fields
  | _ => []

/-- Model of `normalizeProposals`' per-element object (`server.ts:181-197`): the
computed defaults, then `...proposal` so the original fields shadow them.
The `Date.now()` placeholder id is threaded in as `now`.  The `link` field
is omitted when both sources are undefined (the JS key then holds
`undefined`, indistinguishable from absence under field lookup). -/
def normalizeProposal (now : Nat) (p : Json) : Json :=
  Json.obj (
    [("id", jsOr (jsOrOpt (p.get "id") (p.get "proposal_id"))
        (Json.str ("prop-" ++ toString now))),
     ("title", jsOr (jsOrOpt (p.get "title") (descriptionTruncated p))
        (Json.str "Untitled Proposal")),
     ("status", jsOr (p.get "status") (Json.str "unknown")),
     ("votes_for", jsOr (jsOrOpt (p.get "votes_for") (p.get "yes_votes"))
        (Json.num 0)),
     ("votes_against", jsOr (jsOrOpt (p.get "votes_against") (p.get "no_votes"))
        (Json.num 0)),
     ("voting_ends", jsOr (jsOrOpt (p.get "voting_ends") (p.get "end_time"))
        (Json.str "Unknown"))]
    ++ (match jsOrOpt (p.get "link") (p.get "discussion_url") with
        | some v => [("link", v)]
        | none => [])
    ++ [("description", jsOr (jsOrOpt (p.get "description") (p.get "summary"))
        (Json.str "No description available"))]
    ++ p.fieldsOf)

/-- Model of `MyAgent.normalizeProposals`. -/
def normalizeProposals (now : Nat) (proposals : List Json) : List Json :=
  proposals.map (normalizeProposal now)

/-- Model of `normalizeDiscussions`' per-element object (`server.ts:526-540`). -/
def normalizeDiscussion (now : Nat) (d : Json) : Json :=
  Json.obj (
    [("id", jsOr (d.get "id") (Json.str ("disc-" ++ toString now))),
     ("title", jsOr (jsOrOpt (d.get "title") (d.get "topic_title"))
        (Json.str "Untitled Discussion")),
     ("posts_count", jsOr (d.get "posts_count") (Json.num 0)),
     ("views", jsOr (d.get "views") (Json.num 0)),
     ("last_activity", jsOr (jsOrOpt (d.get "last_activity") (d.get "last_posted_at"))
        (Json.str "Unknown")),
     ("url", jsOr (jsOrOpt (d.get "url") (d.get "post_url")) (Json.str "#")),
     ("excerpt", jsOr (jsOrOpt (d.get "excerpt") (d.get "blurb"))
        (Json.str "No excerpt available")),
     ("type", jsOr (d.get "type") (Json.str "topic"))]
    ++ d.fieldsOf)

/-- Model of `MyAgent.normalizeDiscussions`. -/
def normalizeDiscussions (now : Nat) (discussions : List Json) : List Json :=
  discussions.map (normalizeDiscussion now)

/-- The output shape of `extractGovernanceData`. -/
structure ExtractOut where
  proposals : List Json
  discussions : List Json
  crossReferences : List CrossRef

/-- The raw (pre-normalization) proposal list accumulated by the first
loop of `extractGovernanceData`: failed results are skipped, each success
is payload-parsed and contributes `proposalsOf` in order. -/
def rawProposals (parse : String → Option Json) (toolResults : List ToolResult) :
    List Json :=
  toolResults.flatMap fun r =>
    if r.success then
      proposalsOf r.toolCall.toolName
        (parseToolPayload parse (r.result.getD Json.null))
    else []

/-- The raw discussion list accumulated by the first loop of
`extractGovernanceData`. -/
def rawDiscussions (parse : String → Option Json) (toolResults : List ToolResult) :
    List Json :=
  toolResults.flatMap fun r =>
    if r.success then
      discussionsOf r.toolCall.toolName
        (parseToolPayload parse (r.result.getD Json.null))
    else []

/-- Model of `MyAgent.extractGovernanceData` (`server.ts:199-296`): gather raw
proposals and discussions from the successful tool results, cross-reference
the raw lists, and return the normalized lists with the edges.  (The
`query` argument of the source is unused in its body.) -/
def extractGovernanceData (parse : String → Option Json) (now : Nat)
    (toolResults : List ToolResult) (_query : String) : ExtractOut :=
  let proposals := rawProposals parse toolResults
  let discussions := rawDiscussions parse toolResults
  { proposals := normalizeProposals now proposals
    discussions := normalizeDiscussions now discussions
    crossReferences := buildCrossReferences proposals discussions }

/-! ## LLM Pipeline (`claudeFilterResults` / `claudeAnalyzeResults`)

A `fetch` of the completion endpoint is an oracle producing a `ClaudeResp`:
the HTTP status plus the model's text (`claudeResult.content[0].text`). -/

/-- An upstream completion response: HTTP status and the content text. -/
structure ClaudeResp where
  status : Nat
  text : String
  deriving DecidableEq, Repr

/-- Model of `Response.ok`: status in the 2xx range. -/
def respOk (r : ClaudeResp) : Bool :=
  200 ≤ r.status && r.status < 300

/-- Model of `claudeContent.match(/\x7b[\s\S]*\x7d/)`: the (greedy) match runs from
the first opening brace to the last closing brace of the string, and exists
exactly when some closing brace follows the first opening brace. -/
def extractJsonSubstr (s : String) : Option String :=
  let cs := s.toList
  match cs.findIdx? (· = '{'), cs.reverse.findIdx? (· = '}') with
  | some i, some jr =>
      let j := cs.length - 1 - jr
      if i ≤ j then some (String.mk ((cs.drop i).take (j - i + 1))) else none
  | _, _ => none

/-- SameValueZero on the primitive values that populate parsed id arrays
(`Array.prototype.includes`).  Composite values compare by object
reference in JS; two separately parsed composites are never identical, so
they compare unequal here. -/
def jsPrimEq : Json → Json → Bool
  | .null, .null => true
  | .bool a, .bool b => a = b
  | .num a, .num b => a = b
  | .str a, .str b => a = b
  | _, _ => false

/-- Model of `xs.includes(v)` for a possibly-undefined probe `v` against a
JSON-parsed array (which cannot contain `undefined`). -/
def arrIncludes (xs : List Json) (v : Option Json) : Bool :=
  match v with
  | some w => xs.any (jsPrimEq w)
  | none => false

/-- The `ToString` coercion `String.prototype.includes` applies to its
search argument (`String(undefined)` is `"undefined"`). -/
def jsArgString (v : Option Json) : String :=
  match v with
  | some w => w.jsStr
  | none => "undefined"

/-- Model of `x.includes(y)` as invoked by the filter callbacks: an array
receiver uses `Array.prototype.includes` (SameValueZero membership), a
string receiver uses `String.prototype.includes` (substring test on the
string-coerced argument, which does not throw), and any other receiver —
undefined, null, a number, a boolean, or a plain object — has no callable
`includes` and raises a `TypeError`. -/
def jsIncludes (x : Option Json) (y : Option Json) : Except Unit Bool :=
  match x with
  | some (.arr ids) => .ok (arrIncludes ids y)
  | some (.str s) => .ok (strIncludes s (jsArgString y))
  | _ => .error ()

/-- Whether a value has no callable `includes` method, so that invoking
`.includes` on it raises a `TypeError`. -/
def lacksIncludes (x : Option Json) : Bool :=
  match x with
  | some (.arr _) => false
  | some (.str _) => false
  | _ => true

/-- Model of `list.filter(el => ids.includes(el.id))`
(`server.ts:412-418`).  `Array.prototype.filter` invokes the callback once
per element, left to right, so a receiver without `includes` raises only
when the list is nonempty; the raise propagates as `.error`. -/
def filterElems (ids : Option Json) : List Json → Except Unit (List Json)
  | [] => .ok []
  | el :: rest =>
      match jsIncludes ids (el.get "id") with
      | .error _ => .error ()
      | .ok b =>
          match filterElems ids rest with
          | .error _ => .error ()
          | .ok tail => .ok (if b then el :: tail else tail)

/-- Model of the cross-reference filter (`server.ts:421-425`):
`pids.includes(ref.proposal_id) && dids.includes(ref.discussion_id)` per
element, with `&&` short-circuiting so the discussion-id receiver is only
invoked when the proposal-id check passed. -/
def filterRefs (pids dids : Option Json) : List CrossRef → Except Unit (List CrossRef)
  | [] => .ok []
  | ref :: rest =>
      match jsIncludes pids ref.proposal_id with
      | .error _ => .error ()
      | .ok b1 =>
          if b1 then
            match jsIncludes dids ref.discussion_id with
            | .error _ => .error ()
            | .ok b2 =>
                match filterRefs pids dids rest with
                | .error _ => .error ()
                | .ok tail => .ok (if b2 then ref :: tail else tail)
          else
            match filterRefs pids dids rest with
            | .error _ => .error ()
            | .ok tail => .ok tail

/-- The `{proposals, discussions, crossReferences}` aggregate handed to the
filter step. -/
structure RawData where
  proposals : List Json
  discussions : List Json
  crossReferences : List CrossRef

/-- The filter step's return value; `explanation` is undefined on every
fallback path (the raw aggregate has no such field). -/
structure FilterOut where
  proposals : List Json
  discussions : List Json
  crossReferences : List CrossRef
  explanation : Option Json

/-- The fail-open result: `return rawData`. -/
def passthroughFilter (rawData : RawData) : FilterOut :=
  { proposals := rawData.proposals
    discussions := rawData.discussions
    crossReferences := rawData.crossReferences
    explanation := none }

/-- Model of `MyAgent.claudeFilterResults` (`server.ts:298-442`).  Fallback
paths, all yielding the unfiltered `rawData`: non-2xx status; no
JSON-looking substring in the content text ("No JSON found in Claude
response"); `JSON.parse` failure on the extracted substring; and any
`TypeError` raised by the three `.filter` calls — which happens when a
nonempty list invokes `.includes` on a `relevant_proposal_ids` /
`relevant_discussion_ids` value that is neither an array nor a string —
caught by the outer `catch`.  Otherwise the three lists are filtered (by
array membership or, for a string-valued id field, by substring test) and
the model's `explanation` is attached. -/
def claudeFilterResults (rawData : RawData) (resp : ClaudeResp)
    (parse : String → Option Json) : FilterOut :=
  if respOk resp then
    match extractJsonSubstr resp.text with
    | none => passthroughFilter rawData
    | some matched =>
        match parse matched with
        | none => passthroughFilter rawData
        | some instrs =>
            match filterElems (instrs.get "relevant_proposal_ids")
                rawData.proposals with
            | .error _ => passthroughFilter rawData
            | .ok fps =>
                match filterElems (instrs.get "relevant_discussion_ids")
                    rawData.discussions with
                | .error _ => passthroughFilter rawData
                | .ok fds =>
                    match filterRefs (instrs.get "relevant_proposal_ids")
                        (instrs.get "relevant_discussion_ids")
                        rawData.crossReferences with
                    | .error _ => passthroughFilter rawData
                    | .ok frefs =>
                        { proposals := fps
                          discussions := fds
                          crossReferences := frefs
                          explanation := instrs.get "explanation" }
  else passthroughFilter rawData

/-- Model of `MyAgent.claudeAnalyzeResults` (`server.ts:444-524`), returning the
response object of the analyze step.  Non-2xx status →
`{answer: null, analysis: null}`; no JSON-looking substring or a parse
failure → `{answer: claudeContent, analysis: null}`; otherwise the parsed
object itself.  (`_filteredData` shapes only the outbound prompt.) -/
def claudeAnalyzeResults (_filteredData : FilterOut) (resp : ClaudeResp)
    (parse : String → Option Json) : Json :=
  if respOk resp then
    match extractJsonSubstr resp.text with
    | none => Json.obj [("answer", Json.str resp.text), ("analysis", Json.null)]
    | some matched =>
        match parse matched with
        | some parsed => parsed
        | none => Json.obj [("answer", Json.str resp.text), ("analysis", Json.null)]
  else Json.obj [("answer", Json.null), ("analysis", Json.null)]

/-! ## The retry loop of the part_003 copy

In `src/unnamed/part_003` both `claudeFilterResults` (lines 573-607) and
`claudeAnalyzeResults` (lines 709-746) wrap the `fetch` in the same loop:
`for (let i = 0; i < retries; i++)` with `retries = 3`, breaking on a 2xx
response, sleeping `Math.pow(2, i) * 1000` ms and continuing when the
status is 529 and attempts remain, and otherwise returning that call's
fallback value. -/

/-- How one retried fetch ends: a 2xx response, a terminal non-2xx response
(that call's fallback is returned), or loop exhaustion (the dead
`throw new Error("No response received after retries")`, unreachable for
`retries = 3`). -/
inductive FetchOutcome where
  | success (r : ClaudeResp)
  | failure (r : ClaudeResp)
  | exhausted
  deriving DecidableEq, Repr

/-- The retry loop from attempt `i` onward.  `resp n` is the response of
the (n+1)-th `fetch`.  Returns the outcome and the list of back-off sleeps
(in ms) performed, in order. -/
def retryLoopFrom (resp : Nat → ClaudeResp) (retries i : Nat) :
    FetchOutcome × List Nat :=
  if h : i < retries then
    let r := resp i
    if respOk r then (.success r, [])
    else if r.status = 529 ∧ i < retries - 1 then
      let rest := retryLoopFrom resp retries (i + 1)
      (rest.1, (2 ^ i * 1000) :: rest.2)
    else (.failure r, [])
  else (.exhausted, [])
termination_by retries - i

/-- The loop as instantiated at both part_003 call sites: `retries = 3`,
starting at attempt 0. -/
def claudeFetchWithRetry (resp : Nat → ClaudeResp) : FetchOutcome × List Nat :=
  retryLoopFrom resp 3 0

/-! ## Event-sink attachment wait -/

/-- The wait loop of `performSentimentAnalysis`
(`part_003:1709-1719`): `attempts` starts at 0 and the loop sleeps 500 ms
while no controller is attached and `attempts < 10`.  `hasController n` is
whether `this.eventControllers.has(sessionId)` holds after `n` sleeps;
the function returns the attempt counter at loop exit. -/
def waitAttempts (hasController : Nat → Bool) (a : Nat) : Nat :=
  if ¬ hasController a ∧ a < 10 then waitAttempts hasController (a + 1) else a
termination_by 10 - a

/-- Whether `performSentimentAnalysis` proceeds past its guard: after the
wait loop, `if (!this.eventControllers.has(sessionId))` logs a warning and
returns, abandoning the analysis. -/
def sentimentProceeds (hasController : Nat → Bool) : Bool :=
  hasController (waitAttempts hasController 0)

/-- Whether `processQueryWithEvents` (`server.ts:542-568`) proceeds past
its guard: one fixed 500 ms sleep, then
`if (!this.eventControllers.has(sessionId))` returns, abandoning the
query, before any pipeline work or event emission. -/
def queryWithEventsProceeds (hasController : Nat → Bool) : Bool :=
  hasController 1

/-! ## The `query` branch of `MyAgent.onRequest` (`server.ts:923-998`) -/

/-- Truthiness of `body.claudeApiKey` / `headers.get("x-api-key")`
(absent → `undefined` / `null`, and the empty string is falsy). -/
def strOptTruthy (s : Option String) : Bool :=
  match s with
  | some v => v ≠ ""
  | none => false

/-- Model of `a || b` on possibly-absent strings. -/
def strOr (a b : Option String) : Option String :=
  match a with
  | some v => if v ≠ "" then some v else b
  | none => b

/-- What the `query` branch did: the HTTP status, the API key passed to
both LLM steps, and their results. -/
structure QueryOutcome where
  status : Nat
  llmKeyUsed : Option String
  filtered : Option FilterOut
  analysis : Option Json

/-- The `query` branch.  `finalApiKey = claudeApiKey ||
request.headers.get("x-api-key")` is validated (`400` when falsy), but the
subsequent `claudeFilterResults(rawData, query, claudeApiKey)` and
`claudeAnalyzeResults(filteredData, query, claudeApiKey)` calls
(`server.ts:959-972`) pass the body's destructured `claudeApiKey`, not
`finalApiKey`.  `netFilter` / `netAnalyze` give the completion endpoint's
response as a function of the `x-api-key` header value sent. -/
def handleQuery (bodyClaudeApiKey headerApiKey : Option String)
    (rawData : RawData) (netFilter netAnalyze : Option String → ClaudeResp)
    (parse : String → Option Json) : QueryOutcome :=
  let finalApiKey := strOr bodyClaudeApiKey headerApiKey
  if strOptTruthy finalApiKey then
    let filteredData :=
      claudeFilterResults rawData (netFilter bodyClaudeApiKey) parse
    let analysisResult :=
      claudeAnalyzeResults filteredData (netAnalyze bodyClaudeApiKey) parse
    { status := 200
      llmKeyUsed := bodyClaudeApiKey
      filtered := some filteredData
      analysis := some analysisResult }
  else
    { status := 400, llmKeyUsed := none, filtered := none, analysis := none }

/-! ## Shared lemmas about the map model -/

/-- A positive key count means `Map.has` answers true. -/
lemma mapHas_of_keyCount_pos {α : Type} {l : List (String × α)} {k : String}
    (h : 0 < keyCount l k) : mapHas l k = true := by
  unfold keyCount at h
  rw [List.length_pos] at h
  obtain ⟨kv, hkv⟩ := List.exists_mem_of_ne_nil _ h
  have hm := List.mem_filter.mp hkv
  unfold mapHas
  exact List.any_eq_true.mpr ⟨kv, hm.1, hm.2⟩

/-- Replacing the value under `k` in place keeps the number of entries under
`k`. -/
lemma keyCount_replace {α : Type} (l : List (String × α)) (k : String) (v : α) :
    keyCount (l.map fun kv => if kv.1 = k then (k, v) else kv) k = keyCount l k := by
  induction l with
  | nil => rfl
  | cons kv t ih =>
      by_cases h : kv.1 = k
      · simp [keyCount, List.filter_cons, h] at ih ⊢
        exact ih
      · simp [keyCount, List.filter_cons, h] at ih ⊢
        exact ih

/-- After replacing in place, `Map.get` yields the new value. -/
lemma mapGet_replace {α : Type} (l : List (String × α)) (k : String) (v : α)
    (h : mapHas l k = true) :
    mapGet (l.map fun kv => if kv.1 = k then (k, v) else kv) k = some v := by
  induction l with
  | nil => simp [mapHas] at h
  | cons kv t ih =>
      by_cases hk : kv.1 = k
      · simp [mapGet, List.find?_cons, hk]
      · have ht : mapHas t k = true := by
          simpa [mapHas, List.any_cons, hk] using h
        simpa [mapGet, List.find?_cons, hk] using ih ht

/-- Reading a key back after `Map.set` yields the stored value. -/
lemma mapGet_mapSet {α : Type} (l : List (String × α)) (k : String) (v : α) :
    mapGet (mapSet l k v) k = some v := by
  unfold mapSet
  by_cases h : l.any (fun kv => kv.1 = k)
  · simpa [h] using mapGet_replace l k v (by simpa [mapHas] using h)
  · simp only [h, if_false]
    induction l with
    | nil => simp [mapGet]
    | cons kv t ih =>
        simp only [List.any_cons, Bool.or_eq_true, not_or] at h
        have hk : ¬ kv.1 = k := by simpa using h.1
        simpa [mapGet, List.find?_cons, hk] using ih (by simpa using h.2)

/-- Setting a present key keeps the map size. -/
lemma length_mapSet_of_has {α : Type} (l : List (String × α)) (k : String) (v : α)
    (h : mapHas l k = true) : (mapSet l k v).length = l.length := by
  unfold mapSet
  simp [show l.any (fun kv => kv.1 = k) = true from h]

/-- Setting a present key keeps the key count. -/
lemma keyCount_mapSet_of_has {α : Type} (l : List (String × α)) (k : String) (v : α)
    (h : mapHas l k = true) : keyCount (mapSet l k v) k = keyCount l k := by
  unfold mapSet
  simp [show l.any (fun kv => kv.1 = k) = true from h, keyCount_replace]

/-- Deleting a key removes every entry under it. -/
lemma mapHas_mapDelete {α : Type} (l : List (String × α)) (k : String) :
    mapHas (mapDelete l k) k = false := by
  induction l with
  | nil => rfl
  | cons kv t ih =>
      by_cases h : kv.1 = k
      · simpa [mapDelete, List.filter_cons, h] using ih
      · simp [mapDelete, mapHas, List.filter_cons, h] at ih ⊢

/-! ## C1 — idempotent add -/

/-- A registry already holding the name "s" with client handle 1. -/
def regC1 : RegState :=
  { clients := [("s", 1)]
    serverConfigs := [("s", { name := "s", url := "https://a.example", kind := "bitte" })] }

/-- A second add request for the same name "s". -/
def cfgC1 : MCPServerConfig :=
  { name := "s", url := "https://a.example", kind := "bitte" }

/-- C1 counterexample: adding a name that is already present is not a no-op.
The handler opens a fresh transport and, when the second handshake yields a
new client handle (here 2), the registry entry under "s" is replaced — the
state is not unchanged from before the second add. -/
theorem addMCPServer_existing_name_not_noop :
    (addMCPServer regC1 cfgC1 (Except.ok 2) (Except.ok [])).openedTransport = true
    ∧ (addMCPServer regC1 cfgC1 (Except.ok 2) (Except.ok [])).state.clients = [("s", 2)]
    ∧ (addMCPServer regC1 cfgC1 (Except.ok 2) (Except.ok [])).state ≠ regC1 := by
  refine ⟨rfl, rfl, ?_⟩
  decide

/-- C1 (amended): adding a name that is already present (with the usual
`Map` invariant of one entry per key) re-opens a transport and re-runs the
handshake; on handshake success it reports success and replaces the entry
in place — the registry still holds exactly one entry under that name, of
the same size as before, but bound to the new client handle. -/
theorem addMCPServer_existing_name_replaces (st : RegState)
    (config : MCPServerConfig) (c : Nat) (lt : Except String (List String))
    (h : keyCount st.clients config.name = 1) :
    (addMCPServer st config (Except.ok c) lt).status = 200
    ∧ (addMCPServer st config (Except.ok c) lt).openedTransport = true
    ∧ keyCount (addMCPServer st config (Except.ok c) lt).state.clients config.name = 1
    ∧ mapGet (addMCPServer st config (Except.ok c) lt).state.clients config.name = some c
    ∧ (addMCPServer st config (Except.ok c) lt).state.clients.length
        = st.clients.length := by
  have hhas : mapHas st.clients config.name = true :=
    mapHas_of_keyCount_pos (by omega)
  refine ⟨rfl, rfl, ?_, ?_, ?_⟩
  · simpa [addMCPServer, keyCount_mapSet_of_has _ _ _ hhas] using h
  · simp [addMCPServer, mapGet_mapSet]
  · simp [addMCPServer, length_mapSet_of_has _ _ _ hhas]

/-- Witness for C1 (amended) at the concrete registry `regC1`. -/
theorem addMCPServer_existing_name_replaces_w :
    (addMCPServer regC1 cfgC1 (Except.ok 2) (Except.ok [])).status = 200
    ∧ keyCount (addMCPServer regC1 cfgC1 (Except.ok 2) (Except.ok [])).state.clients "s" = 1
    ∧ mapGet (addMCPServer regC1 cfgC1 (Except.ok 2) (Except.ok [])).state.clients "s" = some 2 := by
  have h := addMCPServer_existing_name_replaces regC1 cfgC1 2 (Except.ok [])
    (by decide)
  exact ⟨h.1, h.2.2.1, h.2.2.2.1⟩

/-! ## C2 — add on handshake failure -/

/-- C2 counterexample: when the MCP handshake fails, the connection is not
stored at all (the registry stays empty) and the handler responds 500, not
success. -/
theorem addMCPServer_handshake_failure_stores_nothing :
    (addMCPServer { clients := [], serverConfigs := [] } cfgC1
        (Except.error "connection refused") (Except.ok [])).state.clients = []
    ∧ (addMCPServer { clients := [], serverConfigs := [] } cfgC1
        (Except.error "connection refused") (Except.ok [])).status = 500 := by
  exact ⟨rfl, rfl⟩

/-- C2 (amended): a handshake failure leaves the registry untouched and
returns a 500 error response; only a failure of the initial tool listing
(after a successful handshake) still stores the connection and reports
success. -/
theorem addMCPServer_failure_semantics (st : RegState) (config : MCPServerConfig)
    (e e2 : String) (c : Nat) (lt : Except String (List String)) :
    (addMCPServer st config (Except.error e) lt).state = st
    ∧ (addMCPServer st config (Except.error e) lt).status = 500
    ∧ (addMCPServer st config (Except.ok c) (Except.error e2)).status = 200
    ∧ mapGet (addMCPServer st config (Except.ok c) (Except.error e2)).state.clients
        config.name = some c := by
  exact ⟨rfl, rfl, rfl, by simp [addMCPServer, mapGet_mapSet]⟩

/-! ## C3 — remove semantics -/

/-- C3 counterexample: removing a known serverId whose transport `close`
rejects lets the rejection propagate and leaves the entry in the
registry — remove does not "always succeed in removing the local entry". -/
theorem removeMcp_close_failure_keeps_entry :
    removeMcp regC1 "s" (Except.error "close failed")
      = (regC1, RemoveOutcome.threw "close failed")
    ∧ mapHas (removeMcp regC1 "s" (Except.error "close failed")).1.clients "s"
        = true := by
  exact ⟨rfl, rfl⟩

/-- C3 (amended): an unknown serverId yields the not-found response with the
registry unchanged and nothing thrown; a known serverId with a successful
`close` removes both the client handle and the config; but when `close`
rejects, the rejection propagates and the entry is not removed. -/
theorem removeMcp_semantics (st : RegState) (serverId : String) (e : String)
    (closeResult : Except String Unit) :
    (mapHas st.clients serverId = false →
      removeMcp st serverId closeResult = (st, RemoveOutcome.notFound404))
    ∧ (mapHas st.clients serverId = true →
        removeMcp st serverId (Except.ok ())
          = ({ clients := mapDelete st.clients serverId
               serverConfigs := mapDelete st.serverConfigs serverId },
             RemoveOutcome.ok200)
        ∧ mapHas (removeMcp st serverId (Except.ok ())).1.clients serverId = false
        ∧ removeMcp st serverId (Except.error e) = (st, RemoveOutcome.threw e)) := by
  constructor
  · intro h
    simp [removeMcp, h]
  · intro h
    refine ⟨by simp [removeMcp, h], ?_, by simp [removeMcp, h]⟩
    simp [removeMcp, h, mapHas_mapDelete]

/-- Witness for C3 (amended): the unknown name "t" is a not-found no-op on
`regC1`, and removing "s" with a successful close empties the registry. -/
theorem removeMcp_semantics_w :
    removeMcp regC1 "t" (Except.ok ()) = (regC1, RemoveOutcome.notFound404)
    ∧ removeMcp regC1 "s" (Except.ok ())
        = ({ clients := [], serverConfigs := [] }, RemoveOutcome.ok200) := by
  constructor
  · exact (removeMcp_semantics regC1 "t" "e" (Except.ok ())).1 (by decide)
  · have h := ((removeMcp_semantics regC1 "s" "e" (Except.ok ())).2 (by decide)).1
    simpa using h

/-! ## C4 — Execute phase failure handling -/

/-- The per-call result entry the loop pushes when the server is present:
a success entry on resolution, a `success: false` entry with the error
message on rejection. -/
def executedEntry (callTool : ToolCall → Except String Json) (c : ToolCall) :
    ToolResult :=
  match callTool c with
  | .ok r => { toolCall := c, result := some r, error := none, success := true }
  | .error e => { toolCall := c, result := none, error := some e, success := false }

/-- A planned call against a server name that is absent from the registry. -/
def missingServerCall : ToolCall :=
  { toolName := "getrecentproposals", serverId := "hos", args := Json.null }

/-- C4 counterexample: a planned invocation whose server is missing from
the registry hits `continue` and contributes no result entry at all — the
result list is empty rather than holding one `success=false` entry per
planned call. -/
theorem executeGovernanceTools_missing_server_skipped :
    executeGovernanceTools [] (fun _ => Except.error "unreachable")
        [missingServerCall] = []
    ∧ (executeGovernanceTools [] (fun _ => Except.error "unreachable")
        [missingServerCall]).length ≠ [missingServerCall].length := by
  exact ⟨rfl, by decide⟩

/-- C4 (amended): the Execute phase produces one result entry per planned
call whose server is present in the registry (calls on missing servers are
skipped silently, so the list can be shorter than the plan); each present
call yields its entry independently of earlier failures, and an entry is
tagged `success=false` exactly when the call rejected, in which case it
carries the error message. -/
theorem executeGovernanceTools_independent_failures
    (clients : List (String × Nat)) (callTool : ToolCall → Except String Json) :
    (∀ calls, (executeGovernanceTools clients callTool calls).length
        = (calls.filter fun c => mapHas clients c.serverId).length)
    ∧ (∀ c cs, executeGovernanceTools clients callTool (c :: cs)
        = (if mapHas clients c.serverId then [executedEntry callTool c] else [])
            ++ executeGovernanceTools clients callTool cs)
    ∧ (∀ calls, ∀ r ∈ executeGovernanceTools clients callTool calls,
        r.success = false ↔ ∃ e, callTool r.toolCall = Except.error e
          ∧ r.error = some e) := by
  refine ⟨?_, ?_, ?_⟩
  · intro calls
    induction calls with
    | nil => rfl
    | cons c cs ih =>
        by_cases h : mapHas clients c.serverId
        · cases hc : callTool c <;>
            simp [executeGovernanceTools, h, hc, List.filter_cons, ih]
        · simp [executeGovernanceTools, h, List.filter_cons, ih]
  · intro c cs
    by_cases h : mapHas clients c.serverId
    · cases hc : callTool c <;>
        simp [executeGovernanceTools, executedEntry, h, hc]
    · simp [executeGovernanceTools, h]
  · intro calls
    induction calls with
    | nil => intro r hr; simp [executeGovernanceTools] at hr
    | cons c cs ih =>
        intro r hr
        by_cases h : mapHas clients c.serverId
        · cases hc : callTool c with
          | ok v =>
              simp only [executeGovernanceTools, h, if_true, hc] at hr
              rcases List.mem_cons.mp hr with rfl | hr'
              · constructor
                · intro hfalse; simp at hfalse
                · rintro ⟨e, he, -⟩
                  simp only at he
                  rw [hc] at he
                  cases he
              · exact ih r hr'
          | error e =>
              simp only [executeGovernanceTools, h, if_true, hc] at hr
              rcases List.mem_cons.mp hr with rfl | hr'
              · exact ⟨fun _ => ⟨e, by simpa using hc, rfl⟩, fun _ => rfl⟩
              · exact ih r hr'
        · simp only [executeGovernanceTools, h, if_false] at hr
          exact ih r hr

/-- Witness for C4 (amended): one present server whose call rejects and one
missing server — exactly one result entry comes back. -/
theorem executeGovernanceTools_independent_failures_w :
    (executeGovernanceTools [("near", 1)] (fun _ => Except.error "timeout")
        [{ toolName := "search_posts", serverId := "near", args := Json.null },
         missingServerCall]).length = 1 := by
  have h := (executeGovernanceTools_independent_failures [("near", 1)]
    (fun _ => Except.error "timeout")).1
    [{ toolName := "search_posts", serverId := "near", args := Json.null },
     missingServerCall]
  rw [h]
  decide

/-! ## C5 — envelope extraction -/

/-- The last-wins fold over a field list, started from an arbitrary
accumulator, factors through `lookupField`. -/
lemma lookupField_foldl (l : List (String × Json)) (k : String)
    (init : Option Json) :
    l.foldl (fun acc kv => if kv.1 = k then some kv.2 else acc) init
      = (lookupField l k).or init := by
  induction l generalizing init with
  | nil => simp [lookupField]
  | cons kv t ih =>
      simp only [lookupField, List.foldl_cons]
      by_cases h : kv.1 = k
      · simp only [h, if_true]
        rw [ih (some kv.2)]
        cases h2 : lookupField t k <;> simp [h2]
      · simp only [h, if_false]
        rw [ih init]
        rfl

/-- Looking a key up in a concatenation: later fields win. -/
lemma lookupField_append (a b : List (String × Json)) (k : String) :
    lookupField (a ++ b) k = (lookupField b k).or (lookupField a k) := by
  unfold lookupField
  rw [List.foldl_append, lookupField_foldl]
  rfl

/-- Looking a key up under a prepended field: the tail wins when it binds
the key. -/
lemma lookupField_cons (kv : String × Json) (l : List (String × Json))
    (k : String) :
    lookupField (kv :: l) k
      = (lookupField l k).or (if kv.1 = k then some kv.2 else none) := by
  simp only [lookupField, List.foldl_cons]
  rw [lookupField_foldl]
  rfl

/-- A content-blocks envelope holding a single text block, as in the spec's
extraction example. -/
def mkTextEnvelope (T : String) : Json :=
  Json.obj [("content", Json.arr
    [Json.obj [("type", Json.str "text"), ("text", Json.str T)]])]

/-- A successful tool result whose payload is a single-text-block
envelope. -/
def envelopeResult (tn T : String) : ToolResult :=
  { toolCall := { toolName := tn, serverId := "srv", args := Json.null }
    result := some (mkTextEnvelope T)
    error := none
    success := true }

/-- C5: for a successful result wrapped in a content-blocks envelope, the
extractor joins the text blocks and `JSON.parse`s them.  When the text
parses to an object holding a one-element `proposals` array whose element
has `id: 1`, exactly one normalized proposal comes out and its id is 1
(for any tool name).  When the text is malformed (`parse` fails), nothing
is thrown: the payload becomes the fallback object `{text, raw}`, and
extraction on a neutral tool name returns the well-formed empty
aggregate. -/
theorem extractGovernanceData_envelope (parse : String → Option Json)
    (now : Nat) (T Tbad q tn : String) (pf : List (String × Json))
    (hp : parse T = some (Json.obj [("proposals", Json.arr [Json.obj pf])]))
    (hid : lookupField pf "id" = some (Json.num 1))
    (hbad : parse Tbad = none) :
    (extractGovernanceData parse now [envelopeResult tn T] q).proposals.length = 1
    ∧ ((extractGovernanceData parse now [envelopeResult tn T] q).proposals.head?.bind
        fun p => p.get "id") = some (Json.num 1)
    ∧ parseToolPayload parse (mkTextEnvelope Tbad)
        = Json.obj [("text", Json.str Tbad), ("raw", mkTextEnvelope Tbad)]
    ∧ extractGovernanceData parse now [envelopeResult "fetch_data" Tbad] q
        = { proposals := [], discussions := [], crossReferences := [] } := by
  have hjoinT : String.intercalate "\n" [T] = T := rfl
  have hjoinTbad : String.intercalate "\n" [Tbad] = Tbad := rfl
  have hpayload : parseToolPayload parse (mkTextEnvelope T)
      = Json.obj [("proposals", Json.arr [Json.obj pf])] := by
    simp [parseToolPayload, mkTextEnvelope, Json.get, lookupField, isTextItem,
      contentItemText, Json.jsStr, hjoinT, hp]
  have hbadpayload : parseToolPayload parse (mkTextEnvelope Tbad)
      = Json.obj [("text", Json.str Tbad), ("raw", mkTextEnvelope Tbad)] := by
    simp [parseToolPayload, mkTextEnvelope, Json.get, lookupField, isTextItem,
      contentItemText, Json.jsStr, hjoinTbad, hbad]
  have hraw : rawProposals parse [envelopeResult tn T] = [Json.obj pf] := by
    simp [rawProposals, envelopeResult, hpayload, proposalsOf, Json.get,
      lookupField, optTruthy, Json.truthy]
  have hdisc : rawDiscussions parse [envelopeResult tn T] = [] := by
    have h1 : (Json.obj [("proposals", Json.arr [Json.obj pf])]).get "topics"
        = none := rfl
    have h2 : (Json.obj [("proposals", Json.arr [Json.obj pf])]).get "posts"
        = none := rfl
    have h3 : (Json.obj [("proposals", Json.arr [Json.obj pf])]).get "topic"
        = none := rfl
    simp [rawDiscussions, envelopeResult, hpayload, discussionsOf,
      h1, h2, h3, optTruthy]
  refine ⟨?_, ?_, hbadpayload, ?_⟩
  · simp [extractGovernanceData, hraw, hdisc, normalizeProposals]
  · simp only [extractGovernanceData, hraw, hdisc, normalizeProposals,
      List.map_cons, List.map_nil, List.head?_cons]
    show (normalizeProposal now (Json.obj pf)).get "id" = some (Json.num 1)
    simp [normalizeProposal, Json.get, Json.fieldsOf, lookupField_append,
      lookupField_cons, hid]
  · have hA : strIncludes "fetch_data" "proposal" = false := by decide
    have hB : strIncludes "fetch_data" "topic" = false := by decide
    have hC : strIncludes "fetch_data" "post" = false := by decide
    have hraw2 : rawProposals parse [envelopeResult "fetch_data" Tbad] = [] := by
      simp [rawProposals, envelopeResult, hbadpayload, proposalsOf, Json.get,
        lookupField, optTruthy, hA]
    have hdisc2 : rawDiscussions parse [envelopeResult "fetch_data" Tbad] = [] := by
      simp [rawDiscussions, envelopeResult, hbadpayload, discussionsOf, Json.get,
        lookupField, optTruthy, hB, hC]
    simp [extractGovernanceData, hraw2, hdisc2, normalizeProposals,
      normalizeDiscussions, buildCrossReferences]

/-- The embedded JSON text of the spec's extraction example. -/
def jsonTextW : String := "\x7b\"proposals\":[\x7b\"id\":1\x7d]\x7d"

/-- A concrete stand-in for `JSON.parse` that recognizes exactly the
example text. -/
def parseW : String → Option Json := fun s =>
  if s = jsonTextW then
    some (Json.obj [("proposals", Json.arr [Json.obj [("id", Json.num 1)]])])
  else none

/-- Witness for C5 at the spec's concrete example envelope. -/
theorem extractGovernanceData_envelope_w :
    (extractGovernanceData parseW 0
        [envelopeResult "getrecentproposals" jsonTextW] "q").proposals.length = 1
    ∧ ((extractGovernanceData parseW 0
        [envelopeResult "getrecentproposals" jsonTextW] "q").proposals.head?.bind
          fun p => p.get "id") = some (Json.num 1)
    ∧ parseToolPayload parseW (mkTextEnvelope "not json")
        = Json.obj [("text", Json.str "not json"),
            ("raw", mkTextEnvelope "not json")] := by
  have h := extractGovernanceData_envelope parseW 0 jsonTextW "not json" "q"
    "getrecentproposals" [("id", Json.num 1)]
    (by simp [parseW])
    (by simp [lookupField])
    (by unfold parseW; rw [if_neg (by decide)])
  exact ⟨h.1, h.2.1, h.2.2.1⟩

/-! ## C6 — cross-referencing -/

/-- A proposal with no title: its `(title || "")` is the empty string,
which is a substring of every discussion content. -/
def untitledProposal : Json := Json.obj [("id", Json.num 1)]

/-- An arbitrary discussion. -/
def someDiscussion : Json :=
  Json.obj [("id", Json.num 2), ("title", Json.str "Discussion"),
    ("excerpt", Json.str "general thoughts")]

/-- C6 counterexample: for a proposal without a title the lower-cased
title is `""`, which *is* contained in the discussion's title+excerpt, yet
the loop produces no edge, because `proposalTitle && ...` short-circuits on
the falsy empty string.  The claim's "edge for every containing pair"
therefore fails at this pair. -/
theorem buildCrossReferences_empty_title_no_edge :
    strIncludes (discussionContent someDiscussion)
        (proposalTitleLower untitledProposal) = true
    ∧ buildCrossReferences [untitledProposal] [someDiscussion] = [] := by
  constructor
  · decide
  · rfl

/-- C6 (amended): the loop emits, for every (proposal, discussion) pair
such that the proposal's lower-cased title is nonempty and is contained in
the lower-cased space-joined title-and-excerpt of the discussion, exactly
one `content_match` edge with confidence exactly 0.8 (one edge per matching
pair, none for any other pair — in particular none when the proposal's
title is empty or missing). -/
theorem buildCrossReferences_pairs (ps ds : List Json) :
    ((buildCrossReferences ps ds).length
      = (ps.map fun p => (ds.filter (relatedToProposal p)).length).sum)
    ∧ (∀ r ∈ buildCrossReferences ps ds,
        r.kind = "content_match" ∧ r.confidence = (8 : ℚ) / 10
        ∧ ∃ p ∈ ps, ∃ d ∈ ds, relatedToProposal p d = true
            ∧ r = { kind := "content_match", proposal_id := p.get "id"
                    discussion_id := d.get "id", confidence := (8 : ℚ) / 10 })
    ∧ (∀ p ∈ ps, ∀ d ∈ ds, relatedToProposal p d = true →
        ({ kind := "content_match", proposal_id := p.get "id"
           discussion_id := d.get "id", confidence := (8 : ℚ) / 10 } : CrossRef)
          ∈ buildCrossReferences ps ds) := by
  refine ⟨?_, ?_, ?_⟩
  · induction ps with
    | nil => rfl
    | cons p t ih =>
        simp only [buildCrossReferences, List.flatMap_cons, List.length_append,
          List.map_cons, List.sum_cons, List.length_map] at ih ⊢
        omega
  · intro r hr
    simp only [buildCrossReferences, List.mem_flatMap, List.mem_map,
      List.mem_filter] at hr
    obtain ⟨p, hp, d, ⟨hd, hrel⟩, rfl⟩ := hr
    exact ⟨rfl, rfl, p, hp, d, hd, hrel, rfl⟩
  · intro p hp d hd hrel
    simp only [buildCrossReferences, List.mem_flatMap, List.mem_map,
      List.mem_filter]
    exact ⟨p, hp, d, ⟨hd, hrel⟩, rfl⟩

/-- The spec's cross-reference example proposal. -/
def treasuryProposal : Json :=
  Json.obj [("id", Json.num 1), ("title", Json.str "Treasury Budget")]

/-- The spec's cross-reference example discussion. -/
def treasuryDiscussion : Json :=
  Json.obj [("id", Json.num 2), ("title", Json.str "Discussion"),
    ("excerpt", Json.str "thoughts on Treasury Budget proposal")]

/-- Witness for C6 (amended) at the spec's Treasury Budget example:
exactly one edge. -/
theorem buildCrossReferences_pairs_w :
    (buildCrossReferences [treasuryProposal] [treasuryDiscussion]).length = 1 := by
  rw [(buildCrossReferences_pairs [treasuryProposal] [treasuryDiscussion]).1]
  decide

/-! ## C7 — retry policy of the part_003 pipeline -/

/-- A 529 response is never `ok`. -/
lemma respOk_of_529 {r : ClaudeResp} (h : r.status = 529) : respOk r = false := by
  simp [respOk, h]

/-- C7: the retry loop shared by the part_003 `claudeFilterResults` and
`claudeAnalyzeResults` retries only on status 529, makes at most 3 attempts
in total, sleeps 1000 ms before the second attempt and 2000 ms before the
third, and treats any other non-2xx status — or a 529 on the final
attempt — as terminal for that call. -/
theorem claudeRetry_policy (resp : Nat → ClaudeResp) :
    (respOk (resp 0) = true →
      claudeFetchWithRetry resp = (.success (resp 0), []))
    ∧ (respOk (resp 0) = false → (resp 0).status ≠ 529 →
      claudeFetchWithRetry resp = (.failure (resp 0), []))
    ∧ ((resp 0).status = 529 → respOk (resp 1) = true →
      claudeFetchWithRetry resp = (.success (resp 1), [1000]))
    ∧ ((resp 0).status = 529 → respOk (resp 1) = false → (resp 1).status ≠ 529 →
      claudeFetchWithRetry resp = (.failure (resp 1), [1000]))
    ∧ ((resp 0).status = 529 → (resp 1).status = 529 → respOk (resp 2) = true →
      claudeFetchWithRetry resp = (.success (resp 2), [1000, 2000]))
    ∧ ((resp 0).status = 529 → (resp 1).status = 529 → respOk (resp 2) = false →
      claudeFetchWithRetry resp = (.failure (resp 2), [1000, 2000])) := by
  refine ⟨?_, ?_, ?_, ?_, ?_, ?_⟩
  · intro h0
    simp [claudeFetchWithRetry, retryLoopFrom, h0]
  · intro h0 hs
    simp [claudeFetchWithRetry, retryLoopFrom, h0, hs]
  · intro hs0 h1
    simp [claudeFetchWithRetry, retryLoopFrom, respOk_of_529 hs0, hs0, h1]
  · intro hs0 h1 hs1
    simp [claudeFetchWithRetry, retryLoopFrom, respOk_of_529 hs0, hs0, h1, hs1]
  · intro hs0 hs1 h2
    simp [claudeFetchWithRetry, retryLoopFrom, respOk_of_529 hs0,
      respOk_of_529 hs1, hs0, hs1, h2]
  · intro hs0 hs1 h2
    simp [claudeFetchWithRetry, retryLoopFrom, respOk_of_529 hs0,
      respOk_of_529 hs1, hs0, hs1, h2]

/-- Two consecutive overloads followed by success. -/
def respOverloadedTwice : Nat → ClaudeResp := fun n =>
  if n < 2 then { status := 529, text := "" } else { status := 200, text := "ok" }

/-- Witness for C7: two 529s then a 200 succeed after exactly two retries
with back-off sleeps of 1000 ms then 2000 ms. -/
theorem claudeRetry_policy_w :
    claudeFetchWithRetry respOverloadedTwice
      = (.success { status := 200, text := "ok" }, [1000, 2000]) := by
  have h := (claudeRetry_policy respOverloadedTwice).2.2.2.2.1
    (by decide) (by decide) (by decide)
  simpa using h

/-! ## C8 — filter step fails open -/

/-- Invoking `.includes` on a receiver without the method raises. -/
lemma jsIncludes_err_of_lacks {x : Option Json} (h : lacksIncludes x = true)
    (y : Option Json) : jsIncludes x y = .error () := by
  cases x with
  | none => rfl
  | some v =>
      cases v with
      | arr ids => simp [lacksIncludes] at h
      | str s => simp [lacksIncludes] at h
      | null => rfl
      | bool b => rfl
      | num n => rfl
      | obj fs => rfl

/-- Filtering a nonempty list through a receiver without `.includes`
raises at the first callback invocation. -/
lemma filterElems_err_of_lacks {x : Option Json} (h : lacksIncludes x = true)
    (el : Json) (rest : List Json) : filterElems x (el :: rest) = .error () := by
  simp [filterElems, jsIncludes_err_of_lacks h]

/-- C8: every failure path of `claudeFilterResults` — a non-2xx response, a
content text with no JSON-looking substring, a `JSON.parse` failure on the
extracted substring, or a `TypeError` raised in any of the three filter
stages (in particular when a nonempty proposal list invokes `.includes` on
an id-field value that is neither an array nor a string) — returns the
full unfiltered data set rather than raising. -/
theorem claudeFilterResults_fails_open (rawData : RawData) (resp : ClaudeResp)
    (parse : String → Option Json) :
    (respOk resp = false →
      claudeFilterResults rawData resp parse = passthroughFilter rawData)
    ∧ (extractJsonSubstr resp.text = none →
      claudeFilterResults rawData resp parse = passthroughFilter rawData)
    ∧ (∀ m, extractJsonSubstr resp.text = some m → parse m = none →
      claudeFilterResults rawData resp parse = passthroughFilter rawData)
    ∧ (∀ m instrs, extractJsonSubstr resp.text = some m → parse m = some instrs →
      (filterElems (instrs.get "relevant_proposal_ids") rawData.proposals
          = .error ()
        ∨ filterElems (instrs.get "relevant_discussion_ids") rawData.discussions
          = .error ()
        ∨ filterRefs (instrs.get "relevant_proposal_ids")
            (instrs.get "relevant_discussion_ids") rawData.crossReferences
          = .error ()) →
      claudeFilterResults rawData resp parse = passthroughFilter rawData)
    ∧ (∀ m instrs, extractJsonSubstr resp.text = some m → parse m = some instrs →
      lacksIncludes (instrs.get "relevant_proposal_ids") = true →
      rawData.proposals ≠ [] →
      claudeFilterResults rawData resp parse = passthroughFilter rawData) := by
  refine ⟨?_, ?_, ?_, ?_, ?_⟩
  · intro h
    simp [claudeFilterResults, h]
  · intro h
    by_cases hok : respOk resp
    · simp [claudeFilterResults, hok, h]
    · simp [claudeFilterResults, hok]
  · intro m hm hp
    by_cases hok : respOk resp
    · simp [claudeFilterResults, hok, hm, hp]
    · simp [claudeFilterResults, hok]
  · intro m instrs hm hp hdisj
    by_cases hok : respOk resp
    · rcases hdisj with h1 | h2 | h3
      · simp [claudeFilterResults, hok, hm, hp, h1]
      · cases hfe : filterElems (instrs.get "relevant_proposal_ids")
            rawData.proposals with
        | error e => simp [claudeFilterResults, hok, hm, hp, hfe]
        | ok fps => simp [claudeFilterResults, hok, hm, hp, hfe, h2]
      · cases hfe : filterElems (instrs.get "relevant_proposal_ids")
            rawData.proposals with
        | error e => simp [claudeFilterResults, hok, hm, hp, hfe]
        | ok fps =>
            cases hfd : filterElems (instrs.get "relevant_discussion_ids")
                rawData.discussions with
            | error e => simp [claudeFilterResults, hok, hm, hp, hfe, hfd]
            | ok fds => simp [claudeFilterResults, hok, hm, hp, hfe, hfd, h3]
    · simp [claudeFilterResults, hok]
  · intro m instrs hm hp hlacks hne
    by_cases hok : respOk resp
    · cases hps : rawData.proposals with
      | nil => exact absurd hps hne
      | cons p ps =>
          have herr : filterElems (instrs.get "relevant_proposal_ids")
              rawData.proposals = .error () := by
            rw [hps]
            exact filterElems_err_of_lacks hlacks p ps
          simp [claudeFilterResults, hok, hm, hp, herr]
    · simp [claudeFilterResults, hok]

/-- A concrete raw aggregate for witnesses. -/
def rawDataW : RawData :=
  { proposals := [treasuryProposal]
    discussions := [treasuryDiscussion]
    crossReferences := [] }

/-- Witness for C8: an overloaded (529) response falls back to the full
unfiltered data. -/
theorem claudeFilterResults_fails_open_w :
    claudeFilterResults rawDataW { status := 529, text := "" } (fun _ => none)
      = passthroughFilter rawDataW :=
  (claudeFilterResults_fails_open rawDataW { status := 529, text := "" }
    (fun _ => none)).1 (by decide)

/-! ## C9 — event-sink wait -/

/-- One loop iteration: no sink yet and attempts remain, so sleep and
re-check. -/
lemma waitAttempts_step (hasController : Nat → Bool) (a : Nat)
    (h1 : hasController a = false) (h2 : a < 10) :
    waitAttempts hasController a = waitAttempts hasController (a + 1) := by
  rw [waitAttempts.eq_def]
  rw [if_pos ⟨by simp [h1], h2⟩]

/-- Loop exit: either the sink is there or the attempts are exhausted. -/
lemma waitAttempts_stop (hasController : Nat → Bool) (a : Nat)
    (h : hasController a = true ∨ 10 ≤ a) :
    waitAttempts hasController a = a := by
  rw [waitAttempts.eq_def]
  rcases h with h | h
  · rw [if_neg (by simp [h])]
  · rw [if_neg (by omega)]

/-- C9 counterexample: when no sink ever attaches, both background
pipelines abandon the work rather than proceeding with events dropped.
`performSentimentAnalysis` polls its full 10 attempts and then returns
early; `processQueryWithEvents` returns early after its single 500 ms
wait. -/
theorem eventSinkWait_no_sink_abandons :
    sentimentProceeds (fun _ => false) = false
    ∧ waitAttempts (fun _ => false) 0 = 10
    ∧ queryWithEventsProceeds (fun _ => false) = false := by
  refine ⟨rfl, ?_, rfl⟩
  have hstep : ∀ a, a < 10 →
      waitAttempts (fun _ => false) a = waitAttempts (fun _ => false) (a + 1) :=
    fun a ha => waitAttempts_step _ a rfl ha
  have hstop : waitAttempts (fun _ => false) 10 = 10 :=
    waitAttempts_stop _ 10 (Or.inr (le_refl 10))
  rw [hstep 0 (by omega), hstep 1 (by omega), hstep 2 (by omega),
    hstep 3 (by omega), hstep 4 (by omega), hstep 5 (by omega),
    hstep 6 (by omega), hstep 7 (by omega), hstep 8 (by omega),
    hstep 9 (by omega), hstop]

/-- The exit index of the wait loop, with the guard evaluated there:
starting at attempt `a ≤ 10`, the loop stops below the bound, and the
pipeline proceeds exactly when some poll within the window sees the sink. -/
lemma waitAttempts_window (hasController : Nat → Bool) :
    ∀ n a, a + n = 10 →
      waitAttempts hasController a ≤ 10
      ∧ (hasController (waitAttempts hasController a) = true
          ↔ ∃ k, a ≤ k ∧ k ≤ 10 ∧ hasController k = true) := by
  intro n
  induction n with
  | zero =>
      intro a ha
      have h10 : a = 10 := by omega
      subst h10
      have hw : waitAttempts hasController 10 = 10 :=
        waitAttempts_stop _ 10 (Or.inr (le_refl 10))
      refine ⟨le_of_eq hw, ?_⟩
      rw [hw]
      constructor
      · intro h; exact ⟨10, le_refl 10, le_refl 10, h⟩
      · rintro ⟨k, hk1, hk2, hk⟩
        have : k = 10 := le_antisymm hk2 hk1
        simpa [this] using hk
  | succ n ih =>
      intro a ha
      have halt : a < 10 := by omega
      cases hha : hasController a with
      | true =>
          have hw : waitAttempts hasController a = a :=
            waitAttempts_stop _ a (Or.inl hha)
          refine ⟨by omega, ?_⟩
          rw [hw]
          constructor
          · intro h; exact ⟨a, le_refl a, by omega, h⟩
          · intro _; exact hha
      | false =>
          have hw : waitAttempts hasController a = waitAttempts hasController (a + 1) :=
            waitAttempts_step _ a hha halt
          obtain ⟨hle, hiff⟩ := ih (a + 1) (by omega)
          refine ⟨hw ▸ hle, ?_⟩
          rw [hw, hiff]
          constructor
          · rintro ⟨k, hk1, hk2, hk⟩; exact ⟨k, by omega, hk2, hk⟩
          · rintro ⟨k, hk1, hk2, hk⟩
            refine ⟨k, ?_, hk2, hk⟩
            rcases Nat.eq_or_lt_of_le hk1 with rfl | h
            · rw [hha] at hk; cases hk
            · omega

/-- C9 (amended): the waits are bounded — at most 10 polls of 500 ms in
`performSentimentAnalysis` and a single 500 ms sleep in
`processQueryWithEvents` — but on exhausting them without an attached sink
the handlers return early, abandoning the query, instead of running the
pipeline with events dropped: the sentiment pipeline proceeds iff some
poll within the 10-attempt window sees the sink, and the query pipeline
proceeds iff the sink is attached after the single sleep. -/
theorem eventSinkWait_bounded (hasController : Nat → Bool) :
    waitAttempts hasController 0 ≤ 10
    ∧ (sentimentProceeds hasController = true
        ↔ ∃ k, k ≤ 10 ∧ hasController k = true)
    ∧ (queryWithEventsProceeds hasController = true ↔ hasController 1 = true) := by
  obtain ⟨hle, hiff⟩ := waitAttempts_window hasController 10 0 rfl
  refine ⟨hle, ?_, Iff.rfl⟩
  unfold sentimentProceeds
  rw [hiff]
  constructor
  · rintro ⟨k, -, hk2, hk⟩; exact ⟨k, hk2, hk⟩
  · rintro ⟨k, hk2, hk⟩; exact ⟨k, Nat.zero_le k, hk2, hk⟩

/-- Witness for C9 (amended): a sink that attaches after3 polls lets the
sentiment pipeline proceed. -/
theorem eventSinkWait_bounded_w :
    sentimentProceeds (fun k => k == 3) = true :=
  (eventSinkWait_bounded (fun k => k == 3)).2.1.mpr ⟨3, by decide, by decide⟩

/-! ## C10 — query endpoint key validation and the body-key bug -/

/-- Truthiness of a JS `||` chain on optional strings. -/
lemma strOptTruthy_strOr (a b : Option String) :
    strOptTruthy (strOr a b) = (strOptTruthy a || strOptTruthy b) := by
  cases a with
  | none => simp [strOr, strOptTruthy]
  | some v =>
      by_cases h : v = ""
      · simp [strOr, strOptTruthy, h]
      · simp [strOr, strOptTruthy, h]

/-- C10: the `query` branch rejects with 400 ("Claude API key required")
exactly when neither the body's `claudeApiKey` nor the `x-api-key` header
carries a (nonempty) key; when the key arrives only via the header,
validation passes but both LLM steps are invoked with the body's absent
`claudeApiKey`, so whenever the completion endpoint rejects keyless
requests the filter step falls back to the unfiltered data and the analyze
step to `{answer: null, analysis: null}`. -/
theorem handleQuery_key_validation (bodyKey headerKey : Option String)
    (rawData : RawData) (netFilter netAnalyze : Option String → ClaudeResp)
    (parse : String → Option Json) :
    ((handleQuery bodyKey headerKey rawData netFilter netAnalyze parse).status = 400
      ↔ strOptTruthy bodyKey = false ∧ strOptTruthy headerKey = false)
    ∧ (bodyKey = none → strOptTruthy headerKey = true →
        (handleQuery bodyKey headerKey rawData netFilter netAnalyze parse).status = 200
        ∧ (handleQuery bodyKey headerKey rawData netFilter netAnalyze parse).llmKeyUsed
            = none
        ∧ (respOk (netFilter none) = false →
            (handleQuery bodyKey headerKey rawData netFilter netAnalyze parse).filtered
              = some (passthroughFilter rawData))
        ∧ (respOk (netAnalyze none) = false →
            (handleQuery bodyKey headerKey rawData netFilter netAnalyze parse).analysis
              = some (Json.obj [("answer", Json.null), ("analysis", Json.null)]))) := by
  constructor
  · by_cases h : strOptTruthy (strOr bodyKey headerKey) = true
    · simp only [handleQuery, h, if_true]
      rw [strOptTruthy_strOr] at h
      constructor
      · intro habs; cases habs
      · rintro ⟨h1, h2⟩
        rw [h1, h2] at h
        cases h
    · have h' : strOptTruthy (strOr bodyKey headerKey) = false := by
        simpa using h
      simp only [handleQuery, h', Bool.false_eq_true, if_false]
      rw [strOptTruthy_strOr] at h'
      simp only [Bool.or_eq_false_iff] at h'
      simp [h']
  · rintro rfl hh
    have hcond : strOptTruthy (strOr none headerKey) = true := by
      rw [strOptTruthy_strOr]
      have hnone : strOptTruthy none = false := rfl
      rw [hnone, hh]
      rfl
    refine ⟨by simp [handleQuery, hcond], by simp [handleQuery, hcond], ?_, ?_⟩
    · intro hf
      simp [handleQuery, hcond, claudeFilterResults, hf]
    · intro ha
      simp [handleQuery, hcond, claudeAnalyzeResults, ha]

/-- Witness for C10 at a header-only key against an upstream that rejects
keyless requests with a 401. -/
theorem handleQuery_key_validation_w :
    (handleQuery none (some "sk-key") rawDataW (fun _ => { status := 401, text := "" })
        (fun _ => { status := 401, text := "" }) (fun _ => none)).status = 200
    ∧ (handleQuery none (some "sk-key") rawDataW (fun _ => { status := 401, text := "" })
        (fun _ => { status := 401, text := "" }) (fun _ => none)).llmKeyUsed = none
    ∧ (handleQuery none (some "sk-key") rawDataW (fun _ => { status := 401, text := "" })
        (fun _ => { status := 401, text := "" }) (fun _ => none)).filtered
        = some (passthroughFilter rawDataW)
    ∧ (handleQuery none (some "sk-key") rawDataW (fun _ => { status := 401, text := "" })
        (fun _ => { status := 401, text := "" }) (fun _ => none)).analysis
        = some (Json.obj [("answer", Json.null), ("analysis", Json.null)]) := by
  have h := (handleQuery_key_validation none (some "sk-key") rawDataW
    (fun _ => { status := 401, text := "" }) (fun _ => { status := 401, text := "" })
    (fun _ => none)).2 rfl (by decide)
  exact ⟨h.1, h.2.1, h.2.2.1 (by decide), h.2.2.2 (by decide)⟩

end Aide
